import Mathlib

/-
Verification of the temporal gap-filling and quality-validation engine of the
Satellite-based Indices Estimator (the `whittaker_smooth`, `fill_gaps` and
`validate_results` functions of `mcari_analysis.py`; `savi_analysis.py` is an
index-renamed duplicate).

The embedding works over exact rationals.  Dates are day numbers (ℕ).  A
DataFrame column value that can be NaN is an `Option ℚ`.  Code that can raise
an exception is modelled in `Except String`.  Library calls are embedded by
their semantics:
  * `scipy.sparse.linalg.spsolve` and the spline solves are embedded as exact
    Gaussian elimination (`gaussSolve`),
  * `scipy.interpolate.CubicSpline(bc_type='natural')` as the natural cubic
    spline interpolant,
  * `pandas.Series.interpolate(method='cubic', limit, limit_direction='both')`
    as scipy's `interp1d(kind='cubic')` (a not-a-knot cubic spline through the
    valid points, requiring at least 4 of them, NaN outside their range)
    applied to the NaN positions within `limit` of either end of their NaN
    run; pandas validates `limit` (`Limit must be greater than 0`) after its
    all-valid / all-NaN early returns.
-/

set_option maxRecDepth 4000

/-- Calendar date value as stored in a DataFrame column: either a raw (string)
representation of a day or a parsed datetime day.  `pd.to_datetime` maps a raw
value to the parsed value denoting the same day. -/
inductive DVal where
  | raw (day : ℕ)
  | parsed (day : ℕ)
deriving DecidableEq

/-- Semantics of `pd.to_datetime` on one date cell. -/
def DVal.toDatetime : DVal → DVal
  | .raw d => .parsed d
  | .parsed d => .parsed d

/-- The calendar day denoted by a date cell. -/
def DVal.day : DVal → ℕ
  | .raw d => d
  | .parsed d => d

/-- Whether a date cell is already in datetime form. -/
def DVal.isParsed : DVal → Bool
  | .raw _ => false
  | .parsed _ => true

/-- One real measurement for one calendar date, the input tuple of the gap
filler (date, MCARI_mean, MCARI_stdDev, MCARI_min, MCARI_max, cloud_cover).
`mean` is never null for a valid observation; the secondary statistics may be
null; `cloudCover` comes from the image metadata and is never null. -/
structure Obs where
  date : ℕ
  mean : ℚ
  stdDev : Option ℚ
  min : Option ℚ
  max : Option ℚ
  cloudCover : ℚ
deriving DecidableEq

/-- One row of the gap-filled daily series. -/
structure Row where
  date : ℕ
  mean : Option ℚ
  stdDev : Option ℚ
  min : Option ℚ
  max : Option ℚ
  cloudCover : Option ℚ
  isInterpolated : Bool
deriving DecidableEq

/-- Dot product of two rational vectors. -/
def dot (a b : List ℚ) : ℚ := (List.zipWith (· * ·) a b).sum

/-- Pick the first row of an augmented matrix whose leading coefficient is
nonzero, returning it together with the remaining rows. -/
def pivotSplit : List (List ℚ) → Option (List ℚ × List (List ℚ))
  | [] => none
  | r :: rest =>
    if r.headD 0 ≠ 0 then some (r, rest)
    else
      match pivotSplit rest with
      | none => none
      | some (p, others) => some (p, r :: others)

/-- Eliminate the leading coefficient of row `r` using pivot row `p` and drop
the leading column. -/
def elimRow (p r : List ℚ) : List ℚ :=
  (List.zipWith (fun a b => a - (r.headD 0 / p.headD 0) * b) r p).tail

/-- Gaussian elimination with back substitution on an augmented matrix; the
fuel is the number of unknowns.  Returns `none` when no nonzero pivot exists
(singular system). -/
def gaussAux : ℕ → List (List ℚ) → Option (List ℚ)
  | 0, _ => some []
  | fuel + 1, rows =>
    match pivotSplit rows with
    | none => none
    | some (p, others) =>
      match gaussAux fuel (others.map (elimRow p)) with
      | none => none
      | some xs =>
        some (((p.tail.getLastD 0 - dot p.tail.dropLast xs) / p.headD 0) :: xs)

/-- Solve the linear system `a * z = b` exactly (the embedding of
`scipy.sparse.linalg.spsolve` and of the spline solves). -/
def gaussSolve (a : List (List ℚ)) (b : List ℚ) : Option (List ℚ) :=
  gaussAux a.length (List.zipWith (fun row v => row ++ [v]) a b)

/-- Entry `(r, c)` of the padded second-difference matrix
`D = diags([1, -2, 1], [0, -1, -2], shape=(n+2, n))`. -/
def dEntry (r c : ℕ) : ℚ :=
  if c = r then 1 else if c + 1 = r then -2 else if c + 2 = r then 1 else 0

/-- The system matrix `A = W + lambda * D.T.dot(D)` of `whittaker_smooth`,
with `W = diags(w)`. -/
def whittakerA (w : List ℚ) (lam : ℚ) (n : ℕ) : List (List ℚ) :=
  (List.range n).map (fun i =>
    (List.range n).map (fun j =>
      (if i = j then w.getD i 0 else 0)
        + lam * ((List.range (n + 2)).map (fun r => dEntry r i * dEntry r j)).sum))

/-- `whittaker_smooth(x, w, lambda_)`: solve `(W + lambda * D'D) z = w*x`.
`none` models a singular solve. -/
def whittaker_smooth (x w : List ℚ) (lam : ℚ) : Option (List ℚ) :=
  let n := x.length
  gaussSolve (whittakerA w lam n) ((List.range n).map (fun i => w.getD i 0 * x.getD i 0))

/-- Right hand side of the interior (first-derivative continuity) equation `j`
of a cubic-spline moment system over knots `ts` with values `ys`. -/
def segRhs (ts ys : List ℚ) (j : ℕ) : ℚ :=
  (ys.getD (j + 1) 0 - ys.getD j 0) / (ts.getD (j + 1) 0 - ts.getD j 0)
    - (ys.getD j 0 - ys.getD (j - 1) 0) / (ts.getD j 0 - ts.getD (j - 1) 0)

/-- Row `j` of the moment system of a cubic spline on knots `ts` (`m` knots).
`natural` selects zero end moments (`CubicSpline(bc_type='natural')`);
otherwise the not-a-knot end conditions of `interp1d(kind='cubic')` are used.
Unknown `c` is the second derivative at knot `c`. -/
def momentRow (natural : Bool) (ts : List ℚ) (m j : ℕ) : List ℚ :=
  let h := fun k => ts.getD (k + 1) 0 - ts.getD k 0
  if j = 0 then
    if natural then (List.range m).map (fun c => if c = 0 then 1 else 0)
    else (List.range m).map (fun c =>
      if c = 0 then h 1 else if c = 1 then -(h 0 + h 1) else if c = 2 then h 0 else 0)
  else if j = m - 1 then
    if natural then (List.range m).map (fun c => if c = m - 1 then 1 else 0)
    else (List.range m).map (fun c =>
      if c = m - 3 then h (m - 2)
      else if c = m - 2 then -(h (m - 3) + h (m - 2))
      else if c = m - 1 then h (m - 3) else 0)
  else (List.range m).map (fun c =>
    if c = j - 1 then h (j - 1) / 6
    else if c = j then (h (j - 1) + h j) / 3
    else if c = j + 1 then h j / 6 else 0)

/-- Right hand side of moment equation `j`. -/
def momentRhs (ts ys : List ℚ) (m j : ℕ) : ℚ :=
  if j = 0 ∨ j = m - 1 then 0 else segRhs ts ys j

/-- Second derivatives of the interpolating cubic spline at the knots. -/
def splineMoments (natural : Bool) (ts ys : List ℚ) : List ℚ :=
  let m := ts.length
  (gaussSolve ((List.range m).map (momentRow natural ts m))
      ((List.range m).map (momentRhs ts ys m))).getD (List.replicate m 0)

/-- Evaluate the cubic spline with knots `ts`, values `ys` and knot second
derivatives `ms` at `t`; `none` outside the knot range (NaN for
`interp1d(bounds_error=False)`). -/
def splineEvalAt (ts ys ms : List ℚ) (t : ℚ) : Option ℚ :=
  ((List.range (ts.length - 1)).find? (fun j =>
      decide (ts.getD j 0 ≤ t) && decide (t ≤ ts.getD (j + 1) 0))).map (fun j =>
    let tj := ts.getD j 0
    let tj1 := ts.getD (j + 1) 0
    let h := tj1 - tj
    let mj := ms.getD j 0
    let mj1 := ms.getD (j + 1) 0
    let yj := ys.getD j 0
    let yj1 := ys.getD (j + 1) 0
    mj * (tj1 - t) ^ 3 / (6 * h) + mj1 * (t - tj) ^ 3 / (6 * h)
      + (yj / h - mj * h / 6) * (tj1 - t) + (yj1 / h - mj1 * h / 6) * (t - tj))

/-- Value of `CubicSpline(ts, ys, bc_type='natural')` at `t` (evaluation in
`fill_gaps` only happens inside the knot range, so the default is unused). -/
def naturalSplineVal (ts ys : List ℚ) (t : ℚ) : ℚ :=
  (splineEvalAt ts ys (splineMoments true ts ys) t).getD 0

/-- Value of `interp1d(ts, ys, kind='cubic', bounds_error=False)` at `t`:
not-a-knot cubic spline inside the knot range, NaN (`none`) outside. -/
def notAKnotVal (ts ys : List ℚ) (t : ℚ) : Option ℚ :=
  splineEvalAt ts ys (splineMoments false ts ys) t

/-- At each position, the number of consecutive entries equal to the entry at
that position, counting backwards from it inclusive. -/
def backRunsAux : Option Bool → ℕ → List Bool → List ℕ
  | _, _, [] => []
  | prev, c, b :: rest =>
    let c1 := if prev = some b then c + 1 else 1
    c1 :: backRunsAux (some b) c1 rest

/-- Backward run lengths of a boolean list. -/
def backRuns (g : List Bool) : List ℕ := backRunsAux none 0 g

/-- Forward run lengths of a boolean list. -/
def fwdRuns (g : List Bool) : List ℕ := (backRuns g.reverse).reverse

/-- Size of the maximal run of equal values containing each position: the
embedding of `gaps.groupby(gap_groups).transform('size')`, where
`gap_groups = gaps.ne(gaps.shift()).cumsum()` labels maximal runs. -/
def runSizes (g : List Bool) : List ℕ :=
  (List.range g.length).map (fun i => (backRuns g).getD i 0 + (fwdRuns g).getD i 0 - 1)

/-- First day of the calendar template, `df['date'].min()`. -/
def minDate : List Obs → ℕ
  | [] => 0
  | o :: t => t.foldr (fun a m => Nat.min a.date m) o.date

/-- Last day of the calendar template, `df['date'].max()`. -/
def maxDate : List Obs → ℕ
  | [] => 0
  | o :: t => t.foldr (fun a m => Nat.max a.date m) o.date

/-- Number of days of `pd.date_range(start=min, end=max, freq='D')`. -/
def numDays (df : List Obs) : ℕ := maxDate df - minDate df + 1

/-- The observation joined onto calendar day `d` by
`template_df.merge(df, on='date', how='left')` (unique input dates). -/
def lookupObs (df : List Obs) (d : ℕ) : Option Obs :=
  df.find? (fun o => o.date == d)

/-- The merged `MCARI_mean` column: one entry per calendar day, `none` on days
with no observation. -/
def mergedMeanOf (df : List Obs) : List (Option ℚ) :=
  (List.range (numDays df)).map (fun i => (lookupObs df (minDate df + i)).map Obs.mean)

/-- The merged `MCARI_stdDev` column. -/
def mergedStdOf (df : List Obs) : List (Option ℚ) :=
  (List.range (numDays df)).map (fun i => (lookupObs df (minDate df + i)).bind Obs.stdDev)

/-- The merged `MCARI_min` column. -/
def mergedMinOf (df : List Obs) : List (Option ℚ) :=
  (List.range (numDays df)).map (fun i => (lookupObs df (minDate df + i)).bind Obs.min)

/-- The merged `MCARI_max` column. -/
def mergedMaxOf (df : List Obs) : List (Option ℚ) :=
  (List.range (numDays df)).map (fun i => (lookupObs df (minDate df + i)).bind Obs.max)

/-- The merged `cloud_cover` column (never interpolated by `fill_gaps`). -/
def mergedCloudOf (df : List Obs) : List (Option ℚ) :=
  (List.range (numDays df)).map (fun i => (lookupObs df (minDate df + i)).map Obs.cloudCover)

/-- `gaps = merged_df['MCARI_mean'].isnull()`. -/
def gapsOf (df : List Obs) : List Bool := (mergedMeanOf df).map Option.isNone

/-- `gap_sizes = gaps.groupby(gap_groups).transform('size') * gaps`: run size
at missing positions, `0` at observed positions. -/
def gapSizesOf (df : List Obs) : List ℕ :=
  (List.range (numDays df)).map (fun i =>
    if (gapsOf df).getD i false then (runSizes (gapsOf df)).getD i 0 else 0)

/-- `weights = (~gaps).astype(float); weights[gap_sizes > max_gap_days] = 0`. -/
def weightsOf (df : List Obs) (maxGapDays : ℤ) : List ℚ :=
  (List.range (numDays df)).map (fun i =>
    if ((gapSizesOf df).getD i 0 : ℤ) > maxGapDays then 0
    else if (gapsOf df).getD i false then 0 else 1)

/-- Number of non-null entries of the merged mean column, `valid_idx.sum()`. -/
def validCountOf (df : List Obs) : ℕ :=
  ((mergedMeanOf df).filterMap id).length

/-- `merged_df['MCARI_mean'].mean()`: mean of the non-null entries. -/
def colMeanOf (df : List Obs) : ℚ :=
  let vs := (mergedMeanOf df).filterMap id
  vs.sum / (vs.length : ℚ)

/-- `x = merged_df['MCARI_mean'].fillna(mean).values`. -/
def xOf (df : List Obs) : List ℚ :=
  (mergedMeanOf df).map (fun m => m.getD (colMeanOf df))

/-- `smoothed_mcari = whittaker_smooth(x, weights)` (lambda 100).  The system
matrix is positive definite, so the solve succeeds; the default models the
garbage scipy would return for a singular system. -/
def smoothedOf (df : List Obs) (maxGapDays : ℤ) : List ℚ :=
  (whittaker_smooth (xOf df) (weightsOf df maxGapDays) 100).getD
    (List.replicate (numDays df) 0)

/-- Knot positions (day indices) of the valid mean entries. -/
def knotTsOf (df : List Obs) : List ℚ :=
  (List.range (numDays df)).filterMap (fun i =>
    ((mergedMeanOf df).getD i none).map (fun _ => (i : ℚ)))

/-- Knot values of the valid mean entries. -/
def knotYsOf (df : List Obs) : List ℚ :=
  (List.range (numDays df)).filterMap (fun i => (mergedMeanOf df).getD i none)

/-- The mean column after gap filling: observed entries are kept; missing
entries get `0.7 * smoothed + 0.3 * spline` when more than 3 observations
exist (`CubicSpline` path), else the smoothed value alone. -/
def filledMeanOf (df : List Obs) (maxGapDays : ℤ) : List (Option ℚ) :=
  (List.range (numDays df)).map (fun i =>
    match (mergedMeanOf df).getD i none with
    | some v => some v
    | none =>
      some (if validCountOf df > 3 then
        (7 / 10 : ℚ) * (smoothedOf df maxGapDays).getD i 0
          + (3 / 10 : ℚ) * naturalSplineVal (knotTsOf df) (knotYsOf df) (i : ℚ)
      else (smoothedOf df maxGapDays).getD i 0))

/-- Positions filled by `interpolate(limit=limit, limit_direction='both')`:
a NaN position is filled when it is within `limit` of the preceding or of the
following valid entry. -/
def withinLimit (col : List (Option ℚ)) (limit : ℤ) (i : ℕ) : Bool :=
  let nulls := col.map Option.isNone
  decide (((backRuns nulls).getD i 0 : ℤ) ≤ limit)
    || decide (((fwdRuns nulls).getD i 0 : ℤ) ≤ limit)

/-- Knot positions of the valid entries of a secondary column. -/
def colTs (col : List (Option ℚ)) : List ℚ :=
  (List.range col.length).filterMap (fun i => (col.getD i none).map (fun _ => (i : ℚ)))

/-- Knot values of the valid entries of a secondary column. -/
def colYs (col : List (Option ℚ)) : List ℚ :=
  (List.range col.length).filterMap (fun i => col.getD i none)

/-- The filled secondary column (assuming the guards passed). -/
def interpFill (col : List (Option ℚ)) (limit : ℤ) : List (Option ℚ) :=
  (List.range col.length).map (fun i =>
    match col.getD i none with
    | some v => some v
    | none =>
      if withinLimit col limit i then notAKnotVal (colTs col) (colYs col) (i : ℚ)
      else none)

/-- `merged_df[col].interpolate(method='cubic', limit_direction='both',
limit=max_gap_days)`: early return when nothing is missing or nothing is
valid; pandas then validates the limit; scipy's `interp1d(kind='cubic')`
requires at least 4 valid points. -/
def interpCubicLimited (col : List (Option ℚ)) (limit : ℤ) :
    Except String (List (Option ℚ)) :=
  if col.all Option.isSome then .ok col
  else if (col.filterMap id).length = 0 then .ok col
  else if limit < 1 then .error "Limit must be greater than 0"
  else if (col.filterMap id).length < 4 then
    .error "x and y arrays must have at least 4 entries"
  else .ok (interpFill col limit)

/-- Row of the no-gap early return of `fill_gaps` (the returned frame has no
`is_interpolated` column; absence is read as `false`). -/
def earlyRowAt (df : List Obs) (d : ℕ) : Row :=
  { date := d
    mean := (lookupObs df d).map Obs.mean
    stdDev := (lookupObs df d).bind Obs.stdDev
    min := (lookupObs df d).bind Obs.min
    max := (lookupObs df d).bind Obs.max
    cloudCover := (lookupObs df d).map Obs.cloudCover
    isInterpolated := false }

/-- The no-gap early return of `fill_gaps`. -/
def earlyRowsOf (df : List Obs) : List Row :=
  (List.range (numDays df)).map (fun i => earlyRowAt df (minDate df + i))

/-- Row `i` of the filled frame before the final drop. -/
def mainRowAt (df : List Obs) (maxGapDays : ℤ)
    (stdF minF maxF : List (Option ℚ)) (i : ℕ) : Row :=
  { date := minDate df + i
    mean := (filledMeanOf df maxGapDays).getD i none
    stdDev := stdF.getD i none
    min := minF.getD i none
    max := maxF.getD i none
    cloudCover := (mergedCloudOf df).getD i none
    isInterpolated := (gapsOf df).getD i false }

/-- `merged_df = merged_df[gap_sizes <= max_gap_days]`: the rows surviving the
final drop of oversized runs. -/
def mainRowsOf (df : List Obs) (maxGapDays : ℤ)
    (stdF minF maxF : List (Option ℚ)) : List Row :=
  (List.range (numDays df)).filterMap (fun i =>
    if ((gapSizesOf df).getD i 0 : ℤ) ≤ maxGapDays then
      some (mainRowAt df maxGapDays stdF minF maxF i)
    else none)

/-- `fill_gaps(df, max_gap_days)` on a frame with datetime dates and unique
dates (the documented input invariant; `sort_values` only reorders the right
side of the date join and is semantically absorbed by the join). -/
def fill_gaps (df : List Obs) (maxGapDays : ℤ) : Except String (List Row) :=
  if df.isEmpty then .ok []
  else if (gapsOf df).all (fun b => b = false) then .ok (earlyRowsOf df)
  else do
    let stdF ← interpCubicLimited (mergedStdOf df) maxGapDays
    let minF ← interpCubicLimited (mergedMinOf df) maxGapDays
    let maxF ← interpCubicLimited (mergedMaxOf df) maxGapDays
    .ok (mainRowsOf df maxGapDays stdF minF maxF)

/-- Insert into a sorted list of naturals. -/
def insertNat (a : ℕ) : List ℕ → List ℕ
  | [] => [a]
  | b :: t => if a ≤ b then a :: b :: t else b :: insertNat a t

/-- Insertion sort on naturals (`df.sort_values('date')` inside the
validator). -/
def sortNat : List ℕ → List ℕ
  | [] => []
  | a :: t => insertNat a (sortNat t)

/-- Smallest element of a list of days. -/
def minNat (l : List ℕ) : ℕ :=
  match l with
  | [] => 0
  | a :: t => t.foldr Nat.min a

/-- Largest element of a list of days. -/
def maxNat (l : List ℕ) : ℕ :=
  match l with
  | [] => 0
  | a :: t => t.foldr Nat.max a

/-- `df.isnull().any().any()` on one row (date and the boolean flag are never
null). -/
def rowHasNull (r : Row) : Bool :=
  r.mean.isNone || r.stdDev.isNone || r.min.isNone || r.max.isNone || r.cloudCover.isNone

/-- The issue list of `validate_results` on a nonempty series, in the order
the checks run. -/
def validateIssues (rows : List Row) : List String :=
  let dates := rows.map Row.date
  let span := maxNat dates - minNat dates
  let sorted := sortNat dates
  (if rows.any rowHasNull then ["Missing values detected in the data"] else [])
    ++ (if rows.any (fun r => r.mean.any (fun v => decide (v > 2)))
          ∨ rows.any (fun r => r.mean.any (fun v => decide (v < -2))) then
        ["Unrealistic MCARI values detected"] else [])
    ++ (if span < 30 then
        ["Short temporal coverage: " ++ toString span ++ " days"] else [])
    ++ (if (List.zipWith (fun a b => b - a) sorted sorted.tail).any
          (fun g => decide (g > 30)) then
        ["Large temporal gaps detected (>30 days)"] else [])

/-- `validate_results(df)` on a frame with parsed dates: the empty frame short
circuits; otherwise the report is `(issues == [], issues)`. -/
def validate_results (rows : List Row) : Bool × List String :=
  if rows.isEmpty then (false, ["No valid data found"])
  else
    let issues := validateIssues rows
    (issues.isEmpty, issues)

/-- Observation tuple as read from an arbitrary frame, whose date cell may
still be raw (a string). -/
structure RawObs where
  date : DVal
  mean : ℚ
  stdDev : Option ℚ
  min : Option ℚ
  max : Option ℚ
  cloudCover : ℚ
deriving DecidableEq

/-- Series row whose date cell may still be raw. -/
structure RawRow where
  date : DVal
  mean : Option ℚ
  stdDev : Option ℚ
  min : Option ℚ
  max : Option ℚ
  cloudCover : Option ℚ
  isInterpolated : Bool
deriving DecidableEq

/-- Effect of `df['date'] = pd.to_datetime(df['date'])` on one observation. -/
def parseObs (o : RawObs) : RawObs := { o with date := o.date.toDatetime }

/-- Effect of `df['date'] = pd.to_datetime(df['date'])` on one series row. -/
def parseRow (r : RawRow) : RawRow := { r with date := r.date.toDatetime }

/-- Forget the date representation of an observation. -/
def rawToObs (o : RawObs) : Obs :=
  { date := o.date.day, mean := o.mean, stdDev := o.stdDev, min := o.min
    max := o.max, cloudCover := o.cloudCover }

/-- Forget the date representation of a series row. -/
def rawToRow (r : RawRow) : Row :=
  { date := r.date.day, mean := r.mean, stdDev := r.stdDev, min := r.min
    max := r.max, cloudCover := r.cloudCover, isInterpolated := r.isInterpolated }

/-- `fill_gaps` with its in-place effect on the caller's frame made explicit:
the first component is the input frame after the call (its date column is
converted to datetime in place before anything else), the second the result.
On an empty frame the function returns before touching the dates. -/
def fillGapsState (df : List RawObs) (maxGapDays : ℤ) :
    List RawObs × Except String (List Row) :=
  if df.isEmpty then (df, .ok [])
  else (df.map parseObs, fill_gaps (df.map (fun o => rawToObs (parseObs o))) maxGapDays)

/-- `validate_results` with its in-place effect on the caller's frame made
explicit: the empty check runs before the in-place date conversion. -/
def validateResultsState (rows : List RawRow) :
    List RawRow × (Bool × List String) :=
  if rows.isEmpty then (rows, (false, ["No valid data found"]))
  else (rows.map parseRow, validate_results (rows.map (fun r => rawToRow (parseRow r))))

/-! ### Index and membership lemmas -/

theorem getD_range_map {α : Type} (f : ℕ → α) {n i : ℕ} (h : i < n) (d : α) :
    ((List.range n).map f).getD i d = f i := by
  rw [List.getD_eq_getElem _ _ (by simpa using h)]
  simp

theorem length_range_map {α : Type} (f : ℕ → α) (n : ℕ) :
    ((List.range n).map f).length = n := by simp

theorem natMin_eq_left {a b : ℕ} (h : a ≤ b) : Nat.min a b = a := by
  unfold Nat.min
  omega

theorem natMin_eq_right {a b : ℕ} (h : b ≤ a) : Nat.min a b = b := by
  unfold Nat.min
  omega

theorem natMax_eq_left {a b : ℕ} (h : b ≤ a) : Nat.max a b = a := by
  unfold Nat.max
  omega

theorem natMax_eq_right {a b : ℕ} (h : a ≤ b) : Nat.max a b = b := by
  unfold Nat.max
  omega

theorem foldrMin_le_init (t : List ℕ) (init : ℕ) : t.foldr Nat.min init ≤ init := by
  induction t with
  | nil => exact le_refl _
  | cons c u ihu => exact le_trans (Nat.min_le_right _ _) ihu

theorem foldrMin_le_mem {t : List ℕ} {x : ℕ} (init : ℕ) (hx : x ∈ t) :
    t.foldr Nat.min init ≤ x := by
  induction t with
  | nil => cases hx
  | cons c u ihu =>
    rcases List.mem_cons.mp hx with rfl | hx'
    · exact Nat.min_le_left _ _
    · exact le_trans (Nat.min_le_right _ _) (ihu hx')

theorem foldrMin_cases (t : List ℕ) (init : ℕ) :
    t.foldr Nat.min init = init ∨ t.foldr Nat.min init ∈ t := by
  induction t with
  | nil => exact Or.inl rfl
  | cons c u ihu =>
    rcases Nat.le_total c (u.foldr Nat.min init) with hle | hle
    · refine Or.inr (List.mem_cons.mpr (Or.inl ?_))
      simp only [List.foldr_cons]
      exact natMin_eq_left hle
    · rcases ihu with h1 | h1
      · refine Or.inl ?_
        simp only [List.foldr_cons]
        rw [natMin_eq_right hle, h1]
      · refine Or.inr ?_
        have he : (c :: u).foldr Nat.min init = u.foldr Nat.min init := by
          simp only [List.foldr_cons]
          exact natMin_eq_right hle
        rw [he]
        exact List.mem_cons.mpr (Or.inr h1)

theorem foldrMax_init_le (t : List ℕ) (init : ℕ) : init ≤ t.foldr Nat.max init := by
  induction t with
  | nil => exact le_refl _
  | cons c u ihu => exact le_trans ihu (Nat.le_max_right _ _)

theorem foldrMax_mem_le {t : List ℕ} {x : ℕ} (init : ℕ) (hx : x ∈ t) :
    x ≤ t.foldr Nat.max init := by
  induction t with
  | nil => cases hx
  | cons c u ihu =>
    rcases List.mem_cons.mp hx with rfl | hx'
    · exact Nat.le_max_left _ _
    · exact le_trans (ihu hx') (Nat.le_max_right _ _)

theorem foldrMax_cases (t : List ℕ) (init : ℕ) :
    t.foldr Nat.max init = init ∨ t.foldr Nat.max init ∈ t := by
  induction t with
  | nil => exact Or.inl rfl
  | cons c u ihu =>
    rcases Nat.le_total c (u.foldr Nat.max init) with hle | hle
    · rcases ihu with h1 | h1
      · refine Or.inl ?_
        simp only [List.foldr_cons]
        rw [natMax_eq_right hle, h1]
      · refine Or.inr ?_
        have he : (c :: u).foldr Nat.max init = u.foldr Nat.max init := by
          simp only [List.foldr_cons]
          exact natMax_eq_right hle
        rw [he]
        exact List.mem_cons.mpr (Or.inr h1)
    · refine Or.inr (List.mem_cons.mpr (Or.inl ?_))
      simp only [List.foldr_cons]
      exact natMax_eq_left hle

theorem minNat_le {l : List ℕ} {a : ℕ} (h : a ∈ l) : minNat l ≤ a := by
  cases l with
  | nil => cases h
  | cons b t =>
    rcases List.mem_cons.mp h with rfl | h'
    · exact foldrMin_le_init t a
    · exact foldrMin_le_mem b h'

theorem le_maxNat {l : List ℕ} {a : ℕ} (h : a ∈ l) : a ≤ maxNat l := by
  cases l with
  | nil => cases h
  | cons b t =>
    rcases List.mem_cons.mp h with rfl | h'
    · exact foldrMax_init_le t a
    · exact foldrMax_mem_le b h'

theorem minNat_mem {l : List ℕ} (h : l ≠ []) : minNat l ∈ l := by
  cases l with
  | nil => exact absurd rfl h
  | cons b t =>
    rcases foldrMin_cases t b with h1 | h1
    · exact List.mem_cons.mpr (Or.inl h1)
    · exact List.mem_cons.mpr (Or.inr h1)

theorem maxNat_mem {l : List ℕ} (h : l ≠ []) : maxNat l ∈ l := by
  cases l with
  | nil => exact absurd rfl h
  | cons b t =>
    rcases foldrMax_cases t b with h1 | h1
    · exact List.mem_cons.mpr (Or.inl h1)
    · exact List.mem_cons.mpr (Or.inr h1)

theorem minDate_eq_minNat (df : List Obs) : minDate df = minNat (df.map Obs.date) := by
  cases df with
  | nil => rfl
  | cons o t =>
    show t.foldr (fun a m => Nat.min a.date m) o.date = (t.map Obs.date).foldr Nat.min o.date
    rw [List.foldr_map]

theorem maxDate_eq_maxNat (df : List Obs) : maxDate df = maxNat (df.map Obs.date) := by
  cases df with
  | nil => rfl
  | cons o t =>
    show t.foldr (fun a m => Nat.max a.date m) o.date = (t.map Obs.date).foldr Nat.max o.date
    rw [List.foldr_map]

theorem minDate_le {df : List Obs} {o : Obs} (h : o ∈ df) : minDate df ≤ o.date := by
  rw [minDate_eq_minNat]
  exact minNat_le (List.mem_map_of_mem _ h)

theorem le_maxDate {df : List Obs} {o : Obs} (h : o ∈ df) : o.date ≤ maxDate df := by
  rw [maxDate_eq_maxNat]
  exact le_maxNat (List.mem_map_of_mem _ h)

theorem minDate_attained {df : List Obs} (h : df ≠ []) :
    ∃ o ∈ df, o.date = minDate df := by
  rw [minDate_eq_minNat]
  have hne : df.map Obs.date ≠ [] := by
    intro hc
    exact h (List.map_eq_nil_iff.mp hc)
  rcases List.mem_map.mp (minNat_mem hne) with ⟨o, ho, hd⟩
  exact ⟨o, ho, hd⟩

theorem maxDate_attained {df : List Obs} (h : df ≠ []) :
    ∃ o ∈ df, o.date = maxDate df := by
  rw [maxDate_eq_maxNat]
  have hne : df.map Obs.date ≠ [] := by
    intro hc
    exact h (List.map_eq_nil_iff.mp hc)
  rcases List.mem_map.mp (maxNat_mem hne) with ⟨o, ho, hd⟩
  exact ⟨o, ho, hd⟩

/-- With unique dates, the left join finds exactly the observation itself. -/
theorem lookupObs_self {df : List Obs} (hnd : (df.map Obs.date).Nodup)
    {o : Obs} (ho : o ∈ df) : lookupObs df o.date = some o := by
  induction df with
  | nil => cases ho
  | cons a t ih =>
    rcases List.mem_cons.mp ho with rfl | hmem
    · simp [lookupObs, List.find?_cons]
    · have hne : a.date ≠ o.date := by
        intro he
        have : a.date ∈ t.map Obs.date := he ▸ List.mem_map_of_mem _ hmem
        exact (List.nodup_cons.mp (by simpa using hnd)).1 this
      have ht : (t.map Obs.date).Nodup := (List.nodup_cons.mp (by simpa using hnd)).2
      have hbe : (a.date == o.date) = false := beq_eq_false_iff_ne.mpr hne
      simp only [lookupObs, List.find?_cons, hbe]
      exact ih ht hmem

theorem lookupObs_mem {df : List Obs} {d : ℕ} {o : Obs}
    (h : lookupObs df d = some o) : o ∈ df ∧ o.date = d := by
  refine ⟨List.mem_of_find?_eq_some h, ?_⟩
  have := List.find?_some h
  simpa using this

/-- Index of an observed date on the calendar axis. -/
theorem obs_index {df : List Obs} {o : Obs} (ho : o ∈ df) :
    o.date - minDate df < numDays df ∧ minDate df + (o.date - minDate df) = o.date := by
  have h1 := minDate_le ho
  have h2 := le_maxDate ho
  unfold numDays
  omega

theorem mergedMeanOf_getD {df : List Obs} {i : ℕ} (h : i < numDays df) :
    (mergedMeanOf df).getD i none = (lookupObs df (minDate df + i)).map Obs.mean := by
  unfold mergedMeanOf
  rw [getD_range_map _ h]

theorem mergedStdOf_getD {df : List Obs} {i : ℕ} (h : i < numDays df) :
    (mergedStdOf df).getD i none = (lookupObs df (minDate df + i)).bind Obs.stdDev := by
  unfold mergedStdOf
  rw [getD_range_map _ h]

theorem mergedMinOf_getD {df : List Obs} {i : ℕ} (h : i < numDays df) :
    (mergedMinOf df).getD i none = (lookupObs df (minDate df + i)).bind Obs.min := by
  unfold mergedMinOf
  rw [getD_range_map _ h]

theorem mergedMaxOf_getD {df : List Obs} {i : ℕ} (h : i < numDays df) :
    (mergedMaxOf df).getD i none = (lookupObs df (minDate df + i)).bind Obs.max := by
  unfold mergedMaxOf
  rw [getD_range_map _ h]

theorem mergedCloudOf_getD {df : List Obs} {i : ℕ} (h : i < numDays df) :
    (mergedCloudOf df).getD i none = (lookupObs df (minDate df + i)).map Obs.cloudCover := by
  unfold mergedCloudOf
  rw [getD_range_map _ h]

theorem mergedMeanOf_length (df : List Obs) : (mergedMeanOf df).length = numDays df := by
  unfold mergedMeanOf
  simp

theorem gapsOf_getD {df : List Obs} {i : ℕ} (h : i < numDays df) :
    (gapsOf df).getD i false = ((mergedMeanOf df).getD i none).isNone := by
  rw [mergedMeanOf_getD h]
  unfold gapsOf mergedMeanOf
  rw [List.map_map, getD_range_map _ h]
  rfl

theorem gapSizesOf_getD {df : List Obs} {i : ℕ} (h : i < numDays df) :
    (gapSizesOf df).getD i 0
      = (if (gapsOf df).getD i false then (runSizes (gapsOf df)).getD i 0 else 0) := by
  unfold gapSizesOf
  rw [getD_range_map _ h]

theorem gapSizesOf_getD_observed {df : List Obs} {i : ℕ} (h : i < numDays df)
    (hobs : (gapsOf df).getD i false = false) : (gapSizesOf df).getD i 0 = 0 := by
  rw [gapSizesOf_getD h, hobs]
  rfl

theorem filledMeanOf_getD {df : List Obs} {g : ℤ} {i : ℕ} (h : i < numDays df) {v : ℚ}
    (hv : (mergedMeanOf df).getD i none = some v) :
    (filledMeanOf df g).getD i none = some v := by
  unfold filledMeanOf
  rw [getD_range_map _ h, hv]

theorem interpCubicLimited_preserve {col : List (Option ℚ)} {L : ℤ}
    {res : List (Option ℚ)} (h : interpCubicLimited col L = .ok res)
    {i : ℕ} {v : ℚ} (hv : col.getD i none = some v) : res.getD i none = some v := by
  have hi : i < col.length := by
    by_contra hc
    rw [List.getD_eq_default _ _ (by omega)] at hv
    cases hv
  unfold interpCubicLimited at h
  split at h
  · cases h
    exact hv
  · split at h
    · cases h
      exact hv
    · split at h
      · cases h
      · split at h
        · cases h
        · cases h
          unfold interpFill
          rw [getD_range_map _ hi, hv]

/-- Case analysis of a successful `fill_gaps` call. -/
theorem fill_gaps_ok_cases {df : List Obs} {g : ℤ} {rows : List Row}
    (h : fill_gaps df g = .ok rows) :
    (df = [] ∧ rows = [])
    ∨ (df ≠ [] ∧ (gapsOf df).all (fun b => b = false) = true ∧ rows = earlyRowsOf df)
    ∨ (df ≠ [] ∧ (gapsOf df).all (fun b => b = false) = false ∧
        ∃ stdF minF maxF,
          interpCubicLimited (mergedStdOf df) g = .ok stdF ∧
          interpCubicLimited (mergedMinOf df) g = .ok minF ∧
          interpCubicLimited (mergedMaxOf df) g = .ok maxF ∧
          rows = mainRowsOf df g stdF minF maxF) := by
  unfold fill_gaps at h
  by_cases he : df.isEmpty
  · rw [if_pos he] at h
    cases h
    exact Or.inl ⟨List.isEmpty_iff.mp he, rfl⟩
  · rw [if_neg he] at h
    by_cases hg : (gapsOf df).all (fun b => b = false)
    · rw [if_pos hg] at h
      cases h
      exact Or.inr (Or.inl ⟨fun hc => he (by simp [hc]), hg, rfl⟩)
    · rw [if_neg hg] at h
      refine Or.inr (Or.inr ⟨fun hc => he (by simp [hc]), Bool.of_not_eq_true hg, ?_⟩)
      cases h1 : interpCubicLimited (mergedStdOf df) g with
      | error e => rw [h1] at h; cases h
      | ok stdF =>
        rw [h1] at h
        cases h2 : interpCubicLimited (mergedMinOf df) g with
        | error e => rw [h2] at h; cases h
        | ok minF =>
          rw [h2] at h
          cases h3 : interpCubicLimited (mergedMaxOf df) g with
          | error e => rw [h3] at h; cases h
          | ok maxF =>
            rw [h3] at h
            cases h
            exact ⟨stdF, minF, maxF, rfl, rfl, rfl, rfl⟩

theorem mem_mainRowsOf {df : List Obs} {g : ℤ} {stdF minF maxF : List (Option ℚ)} {r : Row} :
    r ∈ mainRowsOf df g stdF minF maxF
      ↔ ∃ i, i < numDays df ∧ ((gapSizesOf df).getD i 0 : ℤ) ≤ g
          ∧ r = mainRowAt df g stdF minF maxF i := by
  unfold mainRowsOf
  rw [List.mem_filterMap]
  constructor
  · rintro ⟨i, hir, hi⟩
    by_cases hc : ((gapSizesOf df).getD i 0 : ℤ) ≤ g
    · rw [if_pos hc] at hi
      cases hi
      exact ⟨i, List.mem_range.mp hir, hc, rfl⟩
    · rw [if_neg hc] at hi
      cases hi
  · rintro ⟨i, hin, hc, rfl⟩
    exact ⟨i, List.mem_range.mpr hin, if_pos hc⟩

theorem mem_earlyRowsOf {df : List Obs} {r : Row} :
    r ∈ earlyRowsOf df ↔ ∃ i, i < numDays df ∧ r = earlyRowAt df (minDate df + i) := by
  unfold earlyRowsOf
  rw [List.mem_map]
  constructor
  · rintro ⟨i, hir, rfl⟩
    exact ⟨i, List.mem_range.mp hir, rfl⟩
  · rintro ⟨i, hin, rfl⟩
    exact ⟨i, List.mem_range.mpr hin, rfl⟩

/-- Rows produced from increasing calendar indices have strictly increasing
dates. -/
theorem pairwise_date_filterMap (c : ℕ) (f : ℕ → Option Row) (n : ℕ)
    (hf : ∀ i r, f i = some r → r.date = c + i) :
    ((List.range n).filterMap f).Pairwise (fun a b => a.date < b.date) := by
  induction n with
  | zero => simp
  | succ k ih =>
    rw [List.range_succ, List.filterMap_append]
    apply List.pairwise_append.mpr
    refine ⟨ih, ?_, ?_⟩
    · cases hk : f k <;> simp [List.filterMap, hk]
    · intro a ha b hb
      rcases List.mem_filterMap.mp ha with ⟨i, hir, hi⟩
      have hb' : f k = some b := by
        rcases List.mem_filterMap.mp hb with ⟨j, hjr, hj⟩
        have : j = k := by simpa using hjr
        exact this ▸ hj
      rw [hf i a hi, hf k b hb']
      have : i < k := List.mem_range.mp hir
      omega

theorem head?_range_filterMap {f : ℕ → Option Row} {n : ℕ} (hn : 0 < n) {r : Row}
    (h0 : f 0 = some r) : ((List.range n).filterMap f).head? = some r := by
  cases n with
  | zero => omega
  | succ k =>
    rw [List.range_succ_eq_map]
    simp [List.filterMap_cons, h0]

theorem getLast?_range_filterMap {f : ℕ → Option Row} {n : ℕ} (hn : 0 < n) {r : Row}
    (hl : f (n - 1) = some r) : ((List.range n).filterMap f).getLast? = some r := by
  cases n with
  | zero => omega
  | succ k =>
    rw [List.range_succ, List.filterMap_append]
    have : List.filterMap f [k] = [r] := by
      have hk : f k = some r := by simpa using hl
      simp [List.filterMap, hk]
    rw [this]
    exact List.getLast?_concat _

/-! ### Claim theorems -/

/-- C1: For every real Observation in the input whose date's row is retained
in the output of fill, that row's statistic values equal the input values
exactly (in particular the mean, hence within any solver tolerance) and its
`isInterpolated` flag is false; fill never overwrites a value at an observed
position. -/
theorem C1_observed_rows_exact {df : List Obs} {g : ℤ} {rows : List Row}
    (hnd : (df.map Obs.date).Nodup) (hok : fill_gaps df g = .ok rows)
    {o : Obs} (ho : o ∈ df) {r : Row} (hr : r ∈ rows) (hdate : r.date = o.date) :
    r.mean = some o.mean ∧ r.isInterpolated = false
      ∧ (∀ v, o.stdDev = some v → r.stdDev = some v)
      ∧ (∀ v, o.min = some v → r.min = some v)
      ∧ (∀ v, o.max = some v → r.max = some v)
      ∧ r.cloudCover = some o.cloudCover := by
  rcases fill_gaps_ok_cases hok with ⟨hdf, hrows⟩ | ⟨hne, hall, hrows⟩
    | ⟨hne, hsome, stdF, minF, maxF, hs, hm, hM, hrows⟩
  · subst hdf
    cases ho
  · subst hrows
    rcases mem_earlyRowsOf.mp hr with ⟨i, hi, rfl⟩
    have hd : minDate df + i = o.date := hdate
    have hlook : lookupObs df (minDate df + i) = some o := by
      rw [hd]
      exact lookupObs_self hnd ho
    refine ⟨?_, rfl, ?_, ?_, ?_, ?_⟩ <;>
      simp [earlyRowAt, hlook]
  · subst hrows
    rcases mem_mainRowsOf.mp hr with ⟨i, hi, hle, rfl⟩
    have hd : minDate df + i = o.date := hdate
    have hlook : lookupObs df (minDate df + i) = some o := by
      rw [hd]
      exact lookupObs_self hnd ho
    have hmean : (mergedMeanOf df).getD i none = some o.mean := by
      rw [mergedMeanOf_getD hi, hlook]
      rfl
    refine ⟨?_, ?_, ?_, ?_, ?_, ?_⟩
    · show (filledMeanOf df g).getD i none = some o.mean
      exact filledMeanOf_getD hi hmean
    · show (gapsOf df).getD i false = false
      rw [gapsOf_getD hi, hmean]
      rfl
    · intro v hv
      refine interpCubicLimited_preserve hs ?_
      rw [mergedStdOf_getD hi, hlook]
      exact hv
    · intro v hv
      refine interpCubicLimited_preserve hm ?_
      rw [mergedMinOf_getD hi, hlook]
      exact hv
    · intro v hv
      refine interpCubicLimited_preserve hM ?_
      rw [mergedMaxOf_getD hi, hlook]
      exact hv
    · show (mergedCloudOf df).getD i none = some o.cloudCover
      rw [mergedCloudOf_getD hi, hlook]
      rfl

/-- Two-observation input on consecutive days (gap-free), used by witnesses. -/
def wObs1 : Obs :=
  { date := 0, mean := 3/10, stdDev := some (1/20), min := some (1/10)
    max := some (1/2), cloudCover := 5 }

/-- Second witness observation. -/
def wObs2 : Obs :=
  { date := 1, mean := 2/5, stdDev := some (1/25), min := some (1/5)
    max := some (3/5), cloudCover := 7 }

/-- Witness input frame. -/
def wdf : List Obs := [wObs1, wObs2]

/-- Witness for C1 at a concrete gap-free input. -/
theorem C1_observed_rows_exact_witness :
    ((wdf.map Obs.date).Nodup ∧ fill_gaps wdf 32 = .ok (earlyRowsOf wdf)
      ∧ wObs1 ∈ wdf ∧ earlyRowAt wdf (minDate wdf + 0) ∈ earlyRowsOf wdf
      ∧ (earlyRowAt wdf (minDate wdf + 0)).date = wObs1.date)
    ∧ ((earlyRowAt wdf (minDate wdf + 0)).mean = some wObs1.mean
      ∧ (earlyRowAt wdf (minDate wdf + 0)).isInterpolated = false
      ∧ (∀ v, wObs1.stdDev = some v → (earlyRowAt wdf (minDate wdf + 0)).stdDev = some v)
      ∧ (∀ v, wObs1.min = some v → (earlyRowAt wdf (minDate wdf + 0)).min = some v)
      ∧ (∀ v, wObs1.max = some v → (earlyRowAt wdf (minDate wdf + 0)).max = some v)
      ∧ (earlyRowAt wdf (minDate wdf + 0)).cloudCover = some wObs1.cloudCover) :=
  ⟨⟨by decide, by rfl, List.mem_cons_self _ _,
      mem_earlyRowsOf.mpr ⟨0, by decide, rfl⟩, rfl⟩,
    @C1_observed_rows_exact wdf 32 (earlyRowsOf wdf) (by decide) (by rfl)
      wObs1 (List.mem_cons_self _ _) (earlyRowAt wdf (minDate wdf + 0))
      (mem_earlyRowsOf.mpr ⟨0, by decide, rfl⟩) rfl⟩

/-- C8: For every input Observation set whose dates are unique, the output of
fill is strictly increasing by date with no duplicate dates. -/
theorem C8_output_strictly_increasing {df : List Obs} {g : ℤ} {rows : List Row}
    (hnd : (df.map Obs.date).Nodup) (hok : fill_gaps df g = .ok rows) :
    rows.Pairwise (fun a b => a.date < b.date) := by
  rcases fill_gaps_ok_cases hok with ⟨hdf, hrows⟩ | ⟨hne, hall, hrows⟩
    | ⟨hne, hsome, stdF, minF, maxF, hs, hm, hM, hrows⟩
  · subst hrows
    exact List.Pairwise.nil
  · subst hrows
    unfold earlyRowsOf
    rw [List.pairwise_map]
    refine (List.pairwise_lt_range _).imp ?_
    intro a b hab
    show minDate df + a < minDate df + b
    omega
  · subst hrows
    refine pairwise_date_filterMap (minDate df) _ _ ?_
    intro i r hi
    by_cases hc : ((gapSizesOf df).getD i 0 : ℤ) ≤ g
    · rw [if_pos hc] at hi
      cases hi
      rfl
    · rw [if_neg hc] at hi
      cases hi

/-- Witness for C8 at a concrete input. -/
theorem C8_output_strictly_increasing_witness :
    ((wdf.map Obs.date).Nodup ∧ fill_gaps wdf 32 = .ok (earlyRowsOf wdf))
    ∧ (earlyRowsOf wdf).Pairwise (fun a b => a.date < b.date) :=
  ⟨⟨by decide, by rfl⟩,
    @C8_output_strictly_increasing wdf 32 (earlyRowsOf wdf) (by decide) (by rfl)⟩

theorem minDate_le_maxDate {df : List Obs} (hne : df ≠ []) : minDate df ≤ maxDate df := by
  rcases minDate_attained hne with ⟨o, ho, hd⟩
  rw [← hd]
  exact le_maxDate ho

/-- The calendar cell of an observed date: a non-null mean, no gap, gap size
zero. -/
theorem observed_cell {df : List Obs} (hnd : (df.map Obs.date).Nodup)
    {o : Obs} (ho : o ∈ df) {i : ℕ} (hd : minDate df + i = o.date)
    (hi : i < numDays df) :
    (mergedMeanOf df).getD i none = some o.mean
      ∧ (gapsOf df).getD i false = false
      ∧ (gapSizesOf df).getD i 0 = 0 := by
  have hlook : lookupObs df (minDate df + i) = some o := by
    rw [hd]
    exact lookupObs_self hnd ho
  have hmean : (mergedMeanOf df).getD i none = some o.mean := by
    rw [mergedMeanOf_getD hi, hlook]
    rfl
  have hgap : (gapsOf df).getD i false = false := by
    rw [gapsOf_getD hi, hmean]
    rfl
  exact ⟨hmean, hgap, gapSizesOf_getD_observed hi hgap⟩

/-- C10: For every non-empty input Observation set with unique dates and
every maxGapDays ≥ 0, every observed date's row is retained in the output of
fill (observed positions have missing-run length 0, so the drop rule never
removes them); in particular the first and last rows of a non-empty output
are real observations with `isInterpolated = false`. -/
theorem C10_observed_dates_retained {df : List Obs} {g : ℤ} {rows : List Row}
    (hne : df ≠ []) (hnd : (df.map Obs.date).Nodup) (hg : 0 ≤ g)
    (hok : fill_gaps df g = .ok rows) :
    (∀ o ∈ df, ∃ r ∈ rows, r.date = o.date ∧ r.isInterpolated = false
        ∧ r.mean = some o.mean)
    ∧ (∀ r, rows.head? = some r →
        r.isInterpolated = false ∧ ∃ o ∈ df, o.date = r.date)
    ∧ (∀ r, rows.getLast? = some r →
        r.isInterpolated = false ∧ ∃ o ∈ df, o.date = r.date) := by
  have hminmax := minDate_le_maxDate hne
  have hnpos : 0 < numDays df := by
    unfold numDays
    omega
  have hlastidx : minDate df + (numDays df - 1) = maxDate df := by
    unfold numDays
    omega
  rcases minDate_attained hne with ⟨omin, homin, hdmin⟩
  rcases maxDate_attained hne with ⟨omax, homax, hdmax⟩
  rcases fill_gaps_ok_cases hok with ⟨hdf, hrows⟩ | ⟨hne2, hall, hrows⟩
    | ⟨hne2, hsome, stdF, minF, maxF, hs, hm, hM, hrows⟩
  · exact absurd hdf hne
  · subst hrows
    refine ⟨?_, ?_, ?_⟩
    · intro o ho
      obtain ⟨hi, hd⟩ := obs_index ho
      refine ⟨earlyRowAt df (minDate df + (o.date - minDate df)),
        mem_earlyRowsOf.mpr ⟨_, hi, rfl⟩, hd, rfl, ?_⟩
      show (lookupObs df (minDate df + (o.date - minDate df))).map Obs.mean = some o.mean
      rw [hd, lookupObs_self hnd ho]
      rfl
    · intro r hr
      have : ((List.range (numDays df)).filterMap
          (some ∘ fun i => earlyRowAt df (minDate df + i))).head?
            = some (earlyRowAt df (minDate df + 0)) :=
        head?_range_filterMap hnpos rfl
      rw [List.filterMap_eq_map] at this
      unfold earlyRowsOf at hr
      rw [hr] at this
      cases this
      refine ⟨rfl, ⟨omin, homin, ?_⟩⟩
      show omin.date = minDate df + 0
      omega
    · intro r hr
      have : ((List.range (numDays df)).filterMap
          (some ∘ fun i => earlyRowAt df (minDate df + i))).getLast?
            = some (earlyRowAt df (minDate df + (numDays df - 1))) :=
        getLast?_range_filterMap hnpos rfl
      rw [List.filterMap_eq_map] at this
      unfold earlyRowsOf at hr
      rw [hr] at this
      cases this
      refine ⟨rfl, ⟨omax, homax, ?_⟩⟩
      show omax.date = minDate df + (numDays df - 1)
      omega
  · subst hrows
    have hcell0 : (gapSizesOf df).getD 0 0 = 0 :=
      (observed_cell hnd homin (by omega) hnpos).2.2
    have hcellL : (gapSizesOf df).getD (numDays df - 1) 0 = 0 :=
      (observed_cell hnd homax (by omega) (by omega)).2.2
    refine ⟨?_, ?_, ?_⟩
    · intro o ho
      obtain ⟨hi, hd⟩ := obs_index ho
      obtain ⟨hmean, hgap, hsize⟩ := observed_cell hnd ho hd hi
      refine ⟨mainRowAt df g stdF minF maxF (o.date - minDate df),
        mem_mainRowsOf.mpr ⟨_, hi, by rw [hsize]; exact_mod_cast hg, rfl⟩, hd, ?_, ?_⟩
      · show (gapsOf df).getD (o.date - minDate df) false = false
        exact hgap
      · show (filledMeanOf df g).getD (o.date - minDate df) none = some o.mean
        exact filledMeanOf_getD hi hmean
    · intro r hr
      have hf0 : (fun i => if ((gapSizesOf df).getD i 0 : ℤ) ≤ g then
          some (mainRowAt df g stdF minF maxF i) else none) 0
            = some (mainRowAt df g stdF minF maxF 0) := by
        show (if ((gapSizesOf df).getD 0 0 : ℤ) ≤ g then
          some (mainRowAt df g stdF minF maxF 0) else none)
            = some (mainRowAt df g stdF minF maxF 0)
        rw [if_pos (by rw [hcell0]; exact_mod_cast hg)]
      have := @head?_range_filterMap
        (fun i => if ((gapSizesOf df).getD i 0 : ℤ) ≤ g then
          some (mainRowAt df g stdF minF maxF i) else none)
        (numDays df) hnpos (mainRowAt df g stdF minF maxF 0) hf0
      unfold mainRowsOf at hr
      rw [hr] at this
      cases this
      refine ⟨(observed_cell hnd homin (by omega) hnpos).2.1, ⟨omin, homin, by
        show omin.date = minDate df + 0
        omega⟩⟩
    · intro r hr
      have hfL : (fun i => if ((gapSizesOf df).getD i 0 : ℤ) ≤ g then
          some (mainRowAt df g stdF minF maxF i) else none) (numDays df - 1)
            = some (mainRowAt df g stdF minF maxF (numDays df - 1)) := by
        show (if ((gapSizesOf df).getD (numDays df - 1) 0 : ℤ) ≤ g then
          some (mainRowAt df g stdF minF maxF (numDays df - 1)) else none)
            = some (mainRowAt df g stdF minF maxF (numDays df - 1))
        rw [if_pos (by rw [hcellL]; exact_mod_cast hg)]
      have := @getLast?_range_filterMap
        (fun i => if ((gapSizesOf df).getD i 0 : ℤ) ≤ g then
          some (mainRowAt df g stdF minF maxF i) else none)
        (numDays df) hnpos (mainRowAt df g stdF minF maxF (numDays df - 1)) hfL
      unfold mainRowsOf at hr
      rw [hr] at this
      cases this
      refine ⟨(observed_cell hnd homax (by omega) (by omega)).2.1, ⟨omax, homax, by
        show omax.date = minDate df + (numDays df - 1)
        omega⟩⟩

/-- Witness for C10 at a concrete input. -/
theorem C10_observed_dates_retained_witness :
    (wdf ≠ [] ∧ (wdf.map Obs.date).Nodup ∧ (0 : ℤ) ≤ 32
      ∧ fill_gaps wdf 32 = .ok (earlyRowsOf wdf))
    ∧ (∀ o ∈ wdf, ∃ r ∈ earlyRowsOf wdf, r.date = o.date ∧ r.isInterpolated = false
        ∧ r.mean = some o.mean)
    ∧ (∀ r, (earlyRowsOf wdf).head? = some r →
        r.isInterpolated = false ∧ ∃ o ∈ wdf, o.date = r.date)
    ∧ (∀ r, (earlyRowsOf wdf).getLast? = some r →
        r.isInterpolated = false ∧ ∃ o ∈ wdf, o.date = r.date) :=
  ⟨⟨by simp [wdf], by decide, by decide, by rfl⟩,
    @C10_observed_dates_retained wdf 32 (earlyRowsOf wdf)
      (by simp [wdf]) (by decide) (by decide) (by rfl)⟩

theorem gapsOf_length (df : List Obs) : (gapsOf df).length = numDays df := by
  unfold gapsOf
  rw [List.length_map, mergedMeanOf_length]

theorem gaps_all_false_getD {df : List Obs} {i : ℕ}
    (hall : (gapsOf df).all (fun b => b = false) = true) :
    (gapsOf df).getD i false = false := by
  by_cases hi : i < (gapsOf df).length
  · have := List.all_eq_true.mp hall ((gapsOf df).get ⟨i, hi⟩) (List.get_mem _ _ _)
    rw [List.getD_eq_getElem _ _ hi]
    simpa using this
  · rw [List.getD_eq_default _ _ (by omega)]

theorem gap_false_observed {df : List Obs} {i : ℕ} (hi : i < numDays df)
    (h : (gapsOf df).getD i false = false) : ∃ o ∈ df, o.date = minDate df + i := by
  rw [gapsOf_getD hi, mergedMeanOf_getD hi] at h
  cases hl : lookupObs df (minDate df + i) with
  | none => rw [hl] at h; cases h
  | some o =>
    obtain ⟨hm, hd⟩ := lookupObs_mem hl
    exact ⟨o, hm, hd⟩

/-- C2 (amended): for every input with unique dates, every maxGapDays ≥ 0 and
every run on which fill returns a series, a calendar date strictly between
the first and last observed date appears as a row in the output iff it is
observed or its enclosing maximal missing-run length is at most maxGapDays. -/
theorem C2_retention_iff {df : List Obs} {g : ℤ} {rows : List Row}
    (hnd : (df.map Obs.date).Nodup) (hg : 0 ≤ g)
    (hok : fill_gaps df g = .ok rows) {d : ℕ}
    (hbet : minDate df < d ∧ d < maxDate df) :
    (∃ r ∈ rows, r.date = d) ↔
      ((∃ o ∈ df, o.date = d) ∨ ((gapSizesOf df).getD (d - minDate df) 0 : ℤ) ≤ g) := by
  have hi : d - minDate df < numDays df := by
    unfold numDays
    omega
  have hdi : minDate df + (d - minDate df) = d := by omega
  rcases fill_gaps_ok_cases hok with ⟨hdf, hrows⟩ | ⟨hne, hall, hrows⟩
    | ⟨hne, hsome, stdF, minF, maxF, hs, hm, hM, hrows⟩
  · subst hdf
    have h1 : minDate ([] : List Obs) = 0 := rfl
    have h2 : maxDate ([] : List Obs) = 0 := rfl
    omega
  · subst hrows
    have hgapd : (gapsOf df).getD (d - minDate df) false = false :=
      gaps_all_false_getD hall
    constructor
    · intro _
      rcases gap_false_observed hi hgapd with ⟨o, ho, hod⟩
      exact Or.inl ⟨o, ho, by omega⟩
    · intro _
      refine ⟨earlyRowAt df (minDate df + (d - minDate df)),
        mem_earlyRowsOf.mpr ⟨_, hi, rfl⟩, ?_⟩
      show minDate df + (d - minDate df) = d
      omega
  · subst hrows
    have hmain : (∃ r ∈ mainRowsOf df g stdF minF maxF, r.date = d)
        ↔ ((gapSizesOf df).getD (d - minDate df) 0 : ℤ) ≤ g := by
      constructor
      · rintro ⟨r, hr, hrd⟩
        rcases mem_mainRowsOf.mp hr with ⟨j, hj, hc, rfl⟩
        have : minDate df + j = d := hrd
        have : j = d - minDate df := by omega
        subst this
        exact hc
      · intro hc
        refine ⟨mainRowAt df g stdF minF maxF (d - minDate df),
          mem_mainRowsOf.mpr ⟨_, hi, hc, rfl⟩, ?_⟩
        show minDate df + (d - minDate df) = d
        omega
    rw [hmain]
    constructor
    · intro hc
      exact Or.inr hc
    · rintro (⟨o, ho, hod⟩ | hc)
      · have hcell := observed_cell hnd ho (by omega) hi
        rw [hcell.2.2]
        exact_mod_cast hg
      · exact hc

/-- Observation carrying only a mean (all secondary statistics null), as used
by concrete counterexample inputs. -/
def cObs (d : ℕ) (m : ℚ) : Obs :=
  { date := d, mean := m, stdDev := none, min := none, max := none, cloudCover := 0 }

/-- Concrete input refuting C2 as stated: observations on days 0, 1 and 3 and
maxGapDays = -1. -/
def C2cex_df : List Obs := [cObs 0 (3/10), cObs 1 (1/2), cObs 3 (2/5)]

/-- Counterexample to C2 as stated: with maxGapDays = -1, day 1 is observed
and strictly between the first and last date, yet the returned series is
empty, so day 1 does not appear as a row of the output. -/
theorem C2_counterexample :
    (fill_gaps C2cex_df (-1)).toOption = some []
    ∧ (C2cex_df.map Obs.date).Nodup
    ∧ minDate C2cex_df < 1 ∧ (1 : ℕ) < maxDate C2cex_df
    ∧ C2cex_df.any (fun o => o.date == 1) = true :=
  ⟨by rfl, by decide, by decide, by decide, by decide⟩

/-- Concrete gap-carrying input used by the C2 witness. -/
def C2wit_df : List Obs := [cObs 0 (3/10), cObs 2 (2/5)]

/-- Retained rows of the C2 witness run. -/
def C2wit_rows : List Row :=
  mainRowsOf C2wit_df 32 (mergedStdOf C2wit_df) (mergedMinOf C2wit_df) (mergedMaxOf C2wit_df)

/-- Witness for the amended C2 at a concrete input with a filled 1-day gap. -/
theorem C2_retention_iff_witness :
    ((C2wit_df.map Obs.date).Nodup ∧ (0 : ℤ) ≤ 32
      ∧ fill_gaps C2wit_df 32 = .ok C2wit_rows
      ∧ (minDate C2wit_df < 1 ∧ 1 < maxDate C2wit_df))
    ∧ ((∃ r ∈ C2wit_rows, r.date = 1) ↔
        ((∃ o ∈ C2wit_df, o.date = 1)
          ∨ ((gapSizesOf C2wit_df).getD (1 - minDate C2wit_df) 0 : ℤ) ≤ 32)) :=
  ⟨⟨by decide, by decide, by rfl, by decide⟩,
    @C2_retention_iff C2wit_df 32 C2wit_rows (by decide) (by decide) (by rfl) 1 (by decide)⟩

/-- Counterexample to C3 as stated: on the sequence x = [1] with weight 1 at
its only (observed) position and lambda = 100, the smoother returns 1/601:
the boundary rows of the padded difference matrix shrink the solution toward
0, so the observed value is missed by far more than the 1e-6 tolerance. -/
theorem C3_counterexample :
    whittaker_smooth [1] [1] 100 = some [1/601]
    ∧ ¬ (|(1/601 : ℚ) - 1| ≤ 1/1000000) := by
  constructor
  · simp [whittaker_smooth, gaussSolve, gaussAux, pivotSplit, elimRow, whittakerA,
      dEntry, dot, List.range_succ]
    norm_num
  · rw [abs_of_nonpos (by norm_num)]
    norm_num

/-- C3 (amended): the smoother does not reproduce observed values at observed
positions (counterexample above); what holds is that fill never uses the
smoothed estimate at an observed position: the filled mean column equals the
input exactly at every observed position. -/
theorem C3_smoothed_unused_at_observed {df : List Obs} {g : ℤ} {i : ℕ} {v : ℚ}
    (hv : (mergedMeanOf df).getD i none = some v) :
    (filledMeanOf df g).getD i none = some v := by
  have hi : i < numDays df := by
    by_contra hc
    rw [List.getD_eq_default _ _ (by rw [mergedMeanOf_length]; omega)] at hv
    cases hv
  exact filledMeanOf_getD hi hv

/-- Witness for the amended C3 at a concrete observed position. -/
theorem C3_smoothed_unused_at_observed_witness :
    (mergedMeanOf C2wit_df).getD 0 none = some (3/10)
    ∧ (filledMeanOf C2wit_df 32).getD 0 none = some (3/10) :=
  ⟨by rfl, @C3_smoothed_unused_at_observed C2wit_df 32 0 (3/10) (by rfl)⟩

/-- The end-to-end example input of C4: observations at day 0 (mean 0.3),
day 10 (mean 0.5) and day 50 (mean 0.4). -/
def C4_df : List Obs := [cObs 0 (3/10), cObs 10 (1/2), cObs 50 (2/5)]

/-- Counterexample to C4 as stated: day 42 is claimed to be retained, but it
lies inside the 39-day missing run (days 11-49), which the code drops as a
whole, so no output row has date 42. -/
theorem C4_counterexample :
    (fill_gaps C4_df 32).toOption.map (fun rows => rows.any (fun r => r.date == 42))
      = some false := by decide

/-- C4 (amended): on the example input with maxGapDays = 32 the output
retains days 0-10 (the 9-day gap between day 0 and day 10 fully filled and
flagged) and day 50 (exact and not flagged); the whole 39-day run of days
11-49 is dropped. -/
theorem C4_end_to_end :
    (fill_gaps C4_df 32).toOption.map (fun rows =>
        rows.map (fun r => (r.date, r.isInterpolated)))
      = some [(0, false), (1, true), (2, true), (3, true), (4, true), (5, true), (6, true),
              (7, true), (8, true), (9, true), (10, false), (50, false)]
    ∧ (fill_gaps C4_df 32).toOption.map (fun rows =>
        rows.filterMap (fun r => if r.date = 50 then some r.mean else none))
      = some [some (2/5)] :=
  ⟨by decide, by rfl⟩

/-- Observation with non-null secondary statistics, as produced by the data
acquisition pipeline. -/
def fObs (d : ℕ) (m : ℚ) : Obs :=
  { date := d, mean := m, stdDev := some (1/100), min := some 0, max := some 1
    cloudCover := 5 }

/-- The failing input of C5: exactly 3 real observations (with their secondary
statistics) spread across a 40-day window. -/
def C5_df : List Obs := [fObs 0 (3/10), fObs 20 (1/2), fObs 40 (2/5)]

/-- C5 (code evaluated at the failing input): instead of completing on the
smoother-only path, fill raises: the cubic interpolation of the secondary
columns (scipy interp1d kind='cubic') requires at least 4 valid points, and
only 3 exist. -/
theorem C5_fill_raises :
    fill_gaps C5_df 32 = .error "x and y arrays must have at least 4 entries" := by rfl

/-- C6: the provisional placeholder values at weight-0 (missing) positions do
not affect the smoother output: with a 0/1 weight vector and two input
sequences agreeing at every weight-1 position, the smoother outputs coincide
(in particular at every weight-1 position). -/
theorem C6_placeholder_independent {x x' w : List ℚ} {lam : ℚ}
    (hlx : x.length = w.length) (hlx' : x'.length = w.length)
    (hw : ∀ i, i < w.length → w.getD i 0 = 0 ∨ w.getD i 0 = 1)
    (hag : ∀ i, i < w.length → w.getD i 0 = 1 → x.getD i 0 = x'.getD i 0) :
    whittaker_smooth x w lam = whittaker_smooth x' w lam := by
  show gaussSolve (whittakerA w lam x.length)
      ((List.range x.length).map (fun i => w.getD i 0 * x.getD i 0))
    = gaussSolve (whittakerA w lam x'.length)
      ((List.range x'.length).map (fun i => w.getD i 0 * x'.getD i 0))
  rw [hlx, hlx']
  congr 1
  refine List.map_congr_left ?_
  intro i hi
  have hi' := List.mem_range.mp hi
  rcases hw i hi' with h0 | h1
  · rw [h0]
    ring
  · rw [hag i hi' h1]

/-- Witness input sequences for C6: they differ only at the weight-0
position. -/
def C6x : List ℚ := [1, 5]

/-- Second witness input sequence for C6. -/
def C6x' : List ℚ := [1, 7]

/-- Witness weight vector for C6. -/
def C6w : List ℚ := [1, 0]

/-- Witness for C6 at concrete inputs. -/
theorem C6_placeholder_independent_witness :
    (C6x.length = C6w.length ∧ C6x'.length = C6w.length
      ∧ (∀ i, i < C6w.length → C6w.getD i 0 = 0 ∨ C6w.getD i 0 = 1)
      ∧ (∀ i, i < C6w.length → C6w.getD i 0 = 1 → C6x.getD i 0 = C6x'.getD i 0))
    ∧ whittaker_smooth C6x C6w 100 = whittaker_smooth C6x' C6w 100 := by
  have hw : ∀ i, i < C6w.length → C6w.getD i 0 = 0 ∨ C6w.getD i 0 = 1 := by
    intro i hi
    have h2 : i < 2 := hi
    interval_cases i
    · exact Or.inr rfl
    · exact Or.inl rfl
  have hag : ∀ i, i < C6w.length → C6w.getD i 0 = 1 → C6x.getD i 0 = C6x'.getD i 0 := by
    intro i hi h1
    have h2 : i < 2 := hi
    interval_cases i
    · rfl
    · cases h1
  exact ⟨⟨rfl, rfl, hw, hag⟩,
    @C6_placeholder_independent C6x C6x' C6w 100 rfl rfl hw hag⟩

/-- C7: on an empty Observation set fill returns an empty series without
raising an error, and validate on an empty series immediately returns
isValid = false with the single issue "No valid data found" and performs none
of the remaining checks (the issue list is exactly that singleton, and the
input frame is not even touched by the in-place date conversion). -/
theorem C7_empty_input :
    (∀ g : ℤ, fill_gaps [] g = .ok [])
    ∧ validate_results [] = (false, ["No valid data found"])
    ∧ validateResultsState [] = ([], (false, ["No valid data found"])) :=
  ⟨fun _ => rfl, rfl, rfl⟩

/-- A frame entry with a raw (string) date, as read from CSV or built from
the acquisition results. -/
def C9_rawObs : RawObs :=
  { date := .raw 0, mean := 3/10, stdDev := none, min := none, max := none
    cloudCover := 0 }

/-- A series row with a raw (string) date. -/
def C9_rawRow : RawRow :=
  { date := .raw 0, mean := some (3/10), stdDev := some 1, min := some 0
    max := some 1, cloudCover := some 0, isInterpolated := false }

/-- Counterexample to C9 as stated: both fill and validate assign
`df['date'] = pd.to_datetime(df['date'])`, mutating the caller's frame: an
input whose date column is raw is not the same after the call. -/
theorem C9_counterexample :
    (fillGapsState [C9_rawObs] 32).fst ≠ [C9_rawObs]
    ∧ (validateResultsState [C9_rawRow]).fst ≠ [C9_rawRow] := by
  constructor
  · intro h
    have h2 := congrArg (fun l => (l.headD C9_rawObs).date) h
    exact absurd h2 (by decide)
  · intro h
    have h2 := congrArg (fun l => (l.headD C9_rawRow).date) h
    exact absurd h2 (by decide)

theorem parseObs_id {o : RawObs} (h : o.date.isParsed = true) : parseObs o = o := by
  cases o with
  | mk date mean stdDev mn mx cc =>
    cases date with
    | raw d => simp [DVal.isParsed] at h
    | parsed d => rfl

theorem parseRow_id {r : RawRow} (h : r.date.isParsed = true) : parseRow r = r := by
  cases r with
  | mk date mean stdDev mn mx cc flag =>
    cases date with
    | raw d => simp [DVal.isParsed] at h
    | parsed d => rfl

/-- C9 (amended): the only effect of fill and validate on their inputs is the
in-place conversion of the date column to datetime; an input whose dates
already are datetime is left unchanged by both (given which both calls are
pure functions of their inputs, as embedded). -/
theorem C9_parsed_inputs_unchanged {df : List RawObs} {g : ℤ} {sr : List RawRow}
    (h1 : ∀ o ∈ df, o.date.isParsed = true) (h2 : ∀ r ∈ sr, r.date.isParsed = true) :
    (fillGapsState df g).fst = df ∧ (validateResultsState sr).fst = sr := by
  constructor
  · unfold fillGapsState
    by_cases he : df.isEmpty
    · rw [if_pos he]
    · rw [if_neg he]
      show df.map parseObs = df
      rw [List.map_congr_left (fun o ho => parseObs_id (h1 o ho))]
      exact List.map_id df
  · unfold validateResultsState
    by_cases he : sr.isEmpty
    · rw [if_pos he]
    · rw [if_neg he]
      show sr.map parseRow = sr
      rw [List.map_congr_left (fun r hr => parseRow_id (h2 r hr))]
      exact List.map_id sr

/-- A frame entry whose date is already datetime. -/
def C9_pObs : RawObs :=
  { date := .parsed 0, mean := 3/10, stdDev := none, min := none, max := none
    cloudCover := 0 }

/-- A series row whose date is already datetime. -/
def C9_pRow : RawRow :=
  { date := .parsed 0, mean := some (3/10), stdDev := some 1, min := some 0
    max := some 1, cloudCover := some 0, isInterpolated := false }

/-- Witness for the amended C9 at concrete parsed inputs. -/
theorem C9_parsed_inputs_unchanged_witness :
    ((∀ o ∈ [C9_pObs], o.date.isParsed = true) ∧ (∀ r ∈ [C9_pRow], r.date.isParsed = true))
    ∧ (fillGapsState [C9_pObs] 32).fst = [C9_pObs]
    ∧ (validateResultsState [C9_pRow]).fst = [C9_pRow] := by
  have h1 : ∀ o ∈ [C9_pObs], o.date.isParsed = true := by
    intro o ho
    rw [List.mem_singleton.mp ho]
    rfl
  have h2 : ∀ r ∈ [C9_pRow], r.date.isParsed = true := by
    intro r hr
    rw [List.mem_singleton.mp hr]
    rfl
  exact ⟨⟨h1, h2⟩, @C9_parsed_inputs_unchanged [C9_pObs] 32 [C9_pRow] h1 h2⟩
